import Mathlib

/-!
Shallow embedding of the per-session streaming relay loop of
`dedalus_chat_app_demo.py` (the `websocket_chat` handler, lines 206-260),
together with proofs of the behavioural claims about it.

Modelling choices, all taken from the source:
* a session history entry is a `{role, content}` record (`Message`);
* an upstream stream fragment is an object optionally exposing `choices`,
  whose first element has a `delta` with an optional `content` string
  (`Chunk`, `Choice`, `Delta`); a missing attribute and a falsy value are
  both rendered as `none` / the empty value, since the source treats them
  identically via `hasattr` plus truthiness;
* one upstream response (`UpStream`) is the finite list of fragments the
  iteration consumes successfully, followed by an optional exception
  message that aborts the iteration (this also covers `runner.run` itself
  raising, with an empty fragment list);
* one inbound websocket frame is either a successfully parsed JSON object
  (`Frame`, each key optional, mirroring `data.get` with defaults) or a
  receive/parse failure (`Inbound.badFrame`, e.g. invalid JSON), which in
  the source is raised by `websocket.receive_json()` outside every
  `except Exception` handler;
* the process-wide `sessions` dict is an association list keyed by the
  session id; a transport disconnect is modelled at the inter-exchange
  receive suspension point, i.e. the inbound list being exhausted, which
  in the source raises `WebSocketDisconnect` caught by the outer handler.
-/

namespace Arbor

/-- Role tag of a stored history entry (`"role"` field of the dicts
appended at lines 227 and 252 of the source). -/
inductive Role
  | user
  | assistant
deriving DecidableEq

/-- One session history entry: the `{"role": ..., "content": ...}` dict. -/
structure Message where
  role : Role
  content : String
deriving DecidableEq

/-- Outbound protocol events, the JSON frames sent at lines 223, 246-249,
254 and 257 of the source, discriminated by their `type` field. -/
inductive Event
  | start
  | chunk (content : String)
  | done
  | error (message : String)
deriving DecidableEq

/-- The `delta` object of a stream fragment's first choice; `content` is
`none` when the attribute is missing or `None`. -/
structure Delta where
  content : Option String
deriving DecidableEq

/-- One element of a fragment's `choices` list. -/
structure Choice where
  delta : Delta
deriving DecidableEq

/-- One upstream stream fragment; `choices` is `none` when the attribute
is missing (`hasattr(chunk, "choices")` is false in the source). -/
structure Chunk where
  choices : Option (List Choice)
deriving DecidableEq

/-- One upstream streamed response: the fragments the `async for` loop
receives successfully, then `none` for normal exhaustion or `some msg`
for an exception (string description `msg`) aborting the iteration.
`runner.run` itself raising is the case `frags = []`, `fail = some msg`. -/
structure UpStream where
  frags : List Chunk
  fail : Option String
deriving DecidableEq

/-- A successfully parsed inbound JSON object; each field is `none` when
the corresponding key is absent (so `data.get(key, default)` applies). -/
structure Frame where
  message : Option String
  model : Option String
  mcp_servers : Option (List String)
deriving DecidableEq

/-- One inbound item on the connection: a parsed frame together with the
upstream response the provider will produce for it, or a receive/parse
failure (invalid JSON or a non-object payload), whose exception escapes
every handler in the source. -/
inductive Inbound
  | frame (f : Frame) (up : UpStream)
  | badFrame (msg : String)
deriving DecidableEq

/-- How a connection's loop ends: the transport disconnect signal caught
by the outer `except WebSocketDisconnect: pass`, or an uncaught exception
propagating out of the handler. -/
inductive ExitKind
  | disconnected
  | crashed (msg : String)
deriving DecidableEq

/-- Frame decoding, lines 219-221 of the source: `message` defaults to
the empty string, `model` to the fixed fallback identifier, and
`mcp_servers` to the empty list. -/
def decodeFrame (f : Frame) : String × String × List String :=
  (f.message.getD "", f.model.getD "openai/gpt-5.1", f.mcp_servers.getD [])

/-- The keyword-argument record the completion provider is invoked with
(lines 230-238 of the source); `mcp_servers` is `none` when the key is
left out because the decoded list is falsy (empty). -/
structure ProviderCall where
  messages : List Message
  model : String
  stream : Bool
  mcp_servers : Option (List String)
deriving DecidableEq

/-- Body of the `async for` loop, lines 241-249 of the source: the
accumulator holds `(full_response, events emitted so far)`; a fragment
with a truthy first-choice `delta.content` extends both, any other
fragment is skipped. -/
def processChunk (acc : String × List Event) (chunk : Chunk) : String × List Event :=
  match chunk.choices with
  | some (choice :: _) =>
    match choice.delta.content with
    | some content =>
      if content ≠ "" then (acc.1 ++ content, acc.2 ++ [Event.chunk content])
      else acc
    | none => acc
  | _ => acc

/-- Folding the stream-consumption loop over a whole fragment list,
starting from the empty buffer and no events. -/
def streamFold (frags : List Chunk) : String × List Event :=
  frags.foldl processChunk ("", [])

/-- The text a fragment contributes, if any: `some s` exactly when the
source's guards (`hasattr`/truthiness on `choices`, `choices[0].delta`,
`delta.content`) all pass with content `s`. -/
def Chunk.textContent (chunk : Chunk) : Option String :=
  match chunk.choices with
  | some (choice :: _) =>
    match choice.delta.content with
    | some content => if content ≠ "" then some content else none
    | none => none
  | _ => none

/-- Result of one request cycle: the outbound events sent, the session
history after the cycle, and the provider invocation record. -/
structure ExchangeResult where
  events : List Event
  history : List Message
  call : ProviderCall
deriving DecidableEq

/-- One request cycle for a successfully received frame, lines 219-257 of
the source: decode with defaults, emit `start`, append the user entry,
invoke the provider on the updated history, consume the stream; on normal
exhaustion append the assistant entry and emit `done`, on an exception
emit a single `error` event carrying its description (the user entry is
not rolled back). -/
def runExchange (history : List Message) (f : Frame) (up : UpStream) : ExchangeResult :=
  let message := (decodeFrame f).1
  let model := (decodeFrame f).2.1
  let mcp_servers := (decodeFrame f).2.2
  let history1 := history ++ [{ role := Role.user, content := message }]
  let call : ProviderCall :=
    { messages := history1
      model := model
      stream := true
      mcp_servers := if mcp_servers.isEmpty then none else some mcp_servers }
  let r := streamFold up.frags
  match up.fail with
  | some msg =>
    { events := Event.start :: r.2 ++ [Event.error msg]
      history := history1
      call := call }
  | none =>
    { events := Event.start :: r.2 ++ [Event.done]
      history := history1 ++ [{ role := Role.assistant, content := r.1 }]
      call := call }

/-- The process-wide `sessions` dict, as an association list. -/
abbrev Sessions := List (String × List Message)

/-- Dict lookup. -/
def lookupS : Sessions → String → Option (List Message)
  | [], _ => none
  | (k, v) :: rest, key => if k = key then some v else lookupS rest key

/-- Dict assignment: replace the existing binding or add a new one. -/
def setS : Sessions → String → List Message → Sessions
  | [], key, v => [(key, v)]
  | (k, w) :: rest, key, v =>
    if k = key then (k, v) :: rest else (k, w) :: setS rest key v

/-- Lines 210-211 of the source: create an empty history for the session
id if it is not yet in the map. -/
def ensureSession (sessions : Sessions) (sid : String) : Sessions :=
  match lookupS sessions sid with
  | some _ => sessions
  | none => setS sessions sid []

/-- The `while True` receive loop, lines 216-260 of the source, driven by
the finite list of inbound items this connection will deliver before the
disconnect signal.  An exhausted list is the disconnect raised at the
receive suspension point and caught by the outer handler, which emits
nothing and leaves the map untouched; a `badFrame` is an uncaught
receive/parse exception terminating the handler. -/
def runLoop (sid : String) : Sessions → List Inbound → List Event × Sessions × ExitKind
  | sessions, [] => ([], sessions, ExitKind.disconnected)
  | sessions, Inbound.badFrame msg :: _ => ([], sessions, ExitKind.crashed msg)
  | sessions, Inbound.frame f up :: rest =>
    let r := runExchange ((lookupS sessions sid).getD []) f up
    let out := runLoop sid (setS sessions sid r.history) rest
    (r.events ++ out.1, out.2)

/-- The whole `websocket_chat` handler for one connection: accept,
get-or-create the session, then run the receive loop. -/
def websocket_chat (sessions : Sessions) (sid : String) (inputs : List Inbound) :
    List Event × Sessions × ExitKind :=
  runLoop sid (ensureSession sessions sid) inputs

/-- The history buffer a fresh connection for `sid` resolves (lines
210-211 followed by the lookup at line 228). -/
def resolveBuffer (sessions : Sessions) (sid : String) : List Message :=
  (lookupS (ensureSession sessions sid) sid).getD []

/-- Concatenation of a list of strings, in order. -/
def joinAll : List String → String
  | [] => ""
  | s :: rest => s ++ joinAll rest

/-- The `content` fields of the `chunk` events of an event list, in
emission order. -/
def chunkContents : List Event → List String
  | [] => []
  | Event.chunk c :: rest => c :: chunkContents rest
  | _ :: rest => chunkContents rest

/-- The texts of the fragments of a stream that carry non-empty text
content, in arrival order. -/
def fragTexts (frags : List Chunk) : List String :=
  frags.filterMap Chunk.textContent

/-- Whether an outbound event is an `error` event. -/
def Event.isError : Event → Bool
  | Event.error _ => true
  | _ => false

/-- Whether an inbound item is a successfully received frame. -/
def Inbound.isGood : Inbound → Bool
  | Inbound.frame _ _ => true
  | Inbound.badFrame _ => false

/-- Whether an inbound item is a frame whose exchange completes
successfully (the upstream stream is exhausted without error). -/
def Inbound.ok : Inbound → Bool
  | Inbound.frame _ up => up.fail.isNone
  | Inbound.badFrame _ => false

/-- Whether an inbound item is a frame whose exchange fails (the
upstream response ends in an exception). -/
def Inbound.failed : Inbound → Bool
  | Inbound.frame _ up => up.fail.isSome
  | Inbound.badFrame _ => false

/-- Number of successful exchanges among the inbound items. -/
def countOk (inputs : List Inbound) : Nat := (inputs.filter Inbound.ok).length

/-- Number of failed exchanges among the inbound items. -/
def countFailed (inputs : List Inbound) : Nat := (inputs.filter Inbound.failed).length

/-- The outbound events one inbound item gives rise to (a receive/parse
failure emits none). -/
def Inbound.events : Inbound → List Event
  | Inbound.frame f up => (runExchange [] f up).events
  | Inbound.badFrame _ => []

/-- Concatenation of the per-item outbound event blocks of a connection's
inbound items. -/
def allEvents : List Inbound → List Event
  | [] => []
  | i :: rest => Inbound.events i ++ allEvents rest

/-- The session history produced by running the exchanges of a list of
inbound items from a given starting history (a receive/parse failure
terminates the connection, leaving the history as it stands). -/
def applyExchanges (history : List Message) : List Inbound → List Message
  | [] => history
  | Inbound.frame f up :: rest => applyExchanges (runExchange history f up).history rest
  | Inbound.badFrame _ :: _ => history

/-- The roles of a history, in order. -/
def rolesOf (history : List Message) : List Role :=
  history.map Message.role

/-- Strict role pattern asserted by the claim: user/assistant pairs in
order, with at most one unmatched user entry and only at the tail. -/
def strictAlt : List Role → Bool
  | [] => true
  | [Role.user] => true
  | Role.user :: Role.assistant :: rest => strictAlt rest
  | _ => false

/-- Role pattern the code actually maintains: the history is a
concatenation of per-exchange blocks, each either a user entry followed
by its assistant reply or an orphaned user entry from a failed exchange;
orphaned user entries may occur anywhere, not only at the tail. -/
inductive Blocks : List Role → Prop
  | nil : Blocks []
  | orphan (l : List Role) : Blocks l → Blocks (l ++ [Role.user])
  | pair (l : List Role) : Blocks l → Blocks (l ++ [Role.user, Role.assistant])

/-- One step of the stream-consumption loop, characterised through the
fragment's extracted text. -/
theorem processChunk_eq (acc : String × List Event) (c : Chunk) :
    processChunk acc c =
      match c.textContent with
      | some s => (acc.1 ++ s, acc.2 ++ [Event.chunk s])
      | none => acc := by
  rcases c with ⟨_ | (_ | ⟨⟨⟨content⟩⟩, rest⟩)⟩
  · rfl
  · rfl
  · cases content with
    | none => rfl
    | some s => by_cases hs : s = "" <;> simp [processChunk, Chunk.textContent, hs]

/-- Folding the stream-consumption loop appends, to any starting
accumulator, the concatenated fragment texts and the matching `chunk`
events. -/
theorem foldl_processChunk (frags : List Chunk) :
    ∀ acc : String × List Event,
      frags.foldl processChunk acc
        = (acc.1 ++ joinAll (fragTexts frags),
           acc.2 ++ (fragTexts frags).map Event.chunk) := by
  induction frags with
  | nil => intro acc; simp [fragTexts, joinAll]
  | cons c frags ih =>
    intro acc
    rw [List.foldl_cons, processChunk_eq]
    cases htc : c.textContent with
    | none =>
      rw [ih]
      simp [fragTexts, List.filterMap_cons, htc]
    | some s =>
      rw [ih]
      simp [fragTexts, List.filterMap_cons, htc, joinAll, List.append_assoc,
        String.append_assoc]

/-- Closed form of the stream consumption: the buffer is the
concatenation of the truthy fragment texts and the events are the
matching `chunk` events in order. -/
theorem streamFold_eq (frags : List Chunk) :
    streamFold frags = (joinAll (fragTexts frags), (fragTexts frags).map Event.chunk) := by
  have h := foldl_processChunk frags ("", [])
  simpa [streamFold] using h

/-- Extracting `chunk` contents distributes over list append. -/
theorem chunkContents_append (a b : List Event) :
    chunkContents (a ++ b) = chunkContents a ++ chunkContents b := by
  induction a with
  | nil => rfl
  | cons e rest ih => cases e <;> simp [chunkContents, ih]

/-- The `chunk` contents of a pure `chunk`-event list are its payloads. -/
theorem chunkContents_map_chunk (l : List String) :
    chunkContents (l.map Event.chunk) = l := by
  induction l with
  | nil => rfl
  | cons s rest ih => simp [chunkContents, ih]

/-- The provider invocation record of an exchange, independent of the
stream outcome. -/
theorem runExchange_call (history : List Message) (f : Frame) (up : UpStream) :
    (runExchange history f up).call =
      { messages := history ++ [{ role := Role.user, content := (decodeFrame f).1 }]
        model := (decodeFrame f).2.1
        stream := true
        mcp_servers :=
          if (decodeFrame f).2.2.isEmpty then none
          else some (decodeFrame f).2.2 } := by
  rcases up with ⟨frags, fail⟩
  cases fail <;> rfl

/-- Outbound events of a failing exchange: `start`, the `chunk` events
for the fragments received before the failure, one `error` event. -/
theorem runExchange_events_fail (history : List Message) (f : Frame) (up : UpStream)
    (msg : String) (hf : up.fail = some msg) :
    (runExchange history f up).events
      = Event.start :: (fragTexts up.frags).map Event.chunk ++ [Event.error msg] := by
  simp [runExchange, hf, streamFold_eq]

/-- Outbound events of a successful exchange: `start`, the `chunk`
events, one `done` event. -/
theorem runExchange_events_ok (history : List Message) (f : Frame) (up : UpStream)
    (hf : up.fail = none) :
    (runExchange history f up).events
      = Event.start :: (fragTexts up.frags).map Event.chunk ++ [Event.done] := by
  simp [runExchange, hf, streamFold_eq]

/-- History after a failing exchange: the user entry alone is appended. -/
theorem runExchange_history_fail (history : List Message) (f : Frame) (up : UpStream)
    (msg : String) (hf : up.fail = some msg) :
    (runExchange history f up).history
      = history ++ [{ role := Role.user, content := (decodeFrame f).1 }] := by
  simp [runExchange, hf]

/-- History after a successful exchange: the user entry and the
assistant entry holding the accumulated buffer are appended. -/
theorem runExchange_history_ok (history : List Message) (f : Frame) (up : UpStream)
    (hf : up.fail = none) :
    (runExchange history f up).history
      = history ++ [{ role := Role.user, content := (decodeFrame f).1 },
                    { role := Role.assistant, content := joinAll (fragTexts up.frags) }] := by
  simp [runExchange, hf, streamFold_eq]

/-- The outbound events of an exchange do not depend on the history it
starts from. -/
theorem runExchange_events_indep (history : List Message) (f : Frame) (up : UpStream) :
    (runExchange history f up).events = (runExchange [] f up).events := by
  cases hf : up.fail with
  | none => rw [runExchange_events_ok _ _ _ hf, runExchange_events_ok _ _ _ hf]
  | some msg => rw [runExchange_events_fail _ _ _ _ hf, runExchange_events_fail _ _ _ _ hf]

/-- Dict lookup after assignment at the same key. -/
theorem lookupS_setS_self (s : Sessions) (k : String) (v : List Message) :
    lookupS (setS s k v) k = some v := by
  induction s with
  | nil => simp [setS, lookupS]
  | cons p rest ih =>
    rcases p with ⟨k1, v1⟩
    by_cases h : k1 = k <;> simp [setS, lookupS, h, ih]

/-- The buffer a connection resolves is the stored history of its
session id, or the empty history when the id is new. -/
theorem resolveBuffer_eq (s : Sessions) (sid : String) :
    resolveBuffer s sid = (lookupS s sid).getD [] := by
  unfold resolveBuffer ensureSession
  cases h : lookupS s sid with
  | some v => simp [h]
  | none => simp [h, lookupS_setS_self]

/-- With no receive/parse failure among the inputs, the loop ends only
through the disconnect signal. -/
theorem runLoop_exit (sid : String) :
    ∀ inputs : List Inbound, (∀ i ∈ inputs, Inbound.isGood i = true) →
      ∀ sessions : Sessions,
        (runLoop sid sessions inputs).2.2 = ExitKind.disconnected := by
  intro inputs
  induction inputs with
  | nil => intro _ _; rfl
  | cons i rest ih =>
    intro hg sessions
    cases i with
    | badFrame msg =>
      have hbad := hg (Inbound.badFrame msg) (by simp)
      simp [Inbound.isGood] at hbad
    | frame f up =>
      have hg2 : ∀ j ∈ rest, Inbound.isGood j = true := fun j hj => hg j (by simp [hj])
      simpa [runLoop] using ih hg2 _

/-- With no receive/parse failure among the inputs, the connection's
outbound log is the concatenation of the per-item event blocks. -/
theorem runLoop_events (sid : String) :
    ∀ inputs : List Inbound, (∀ i ∈ inputs, Inbound.isGood i = true) →
      ∀ sessions : Sessions,
        (runLoop sid sessions inputs).1 = allEvents inputs := by
  intro inputs
  induction inputs with
  | nil => intro _ _; rfl
  | cons i rest ih =>
    intro hg sessions
    cases i with
    | badFrame msg =>
      have hbad := hg (Inbound.badFrame msg) (by simp)
      simp [Inbound.isGood] at hbad
    | frame f up =>
      have hg2 : ∀ j ∈ rest, Inbound.isGood j = true := fun j hj => hg j (by simp [hj])
      simp [runLoop, allEvents, Inbound.events, ih hg2, runExchange_events_indep]

/-- With no receive/parse failure among the inputs, the stored history of
the session id after the loop is the fold of the exchanges over the
stored history before it. -/
theorem runLoop_history (sid : String) :
    ∀ inputs : List Inbound, (∀ i ∈ inputs, Inbound.isGood i = true) →
      ∀ sessions : Sessions,
        (lookupS (runLoop sid sessions inputs).2.1 sid).getD []
          = applyExchanges ((lookupS sessions sid).getD []) inputs := by
  intro inputs
  induction inputs with
  | nil => intro _ _; rfl
  | cons i rest ih =>
    intro hg sessions
    cases i with
    | badFrame msg =>
      have hbad := hg (Inbound.badFrame msg) (by simp)
      simp [Inbound.isGood] at hbad
    | frame f up =>
      have hg2 : ∀ j ∈ rest, Inbound.isGood j = true := fun j hj => hg j (by simp [hj])
      simp only [runLoop, applyExchanges]
      rw [ih hg2, lookupS_setS_self, Option.getD_some]

/-- Getting-or-creating a session does not change the buffer its id
resolves to (a fresh id resolves the empty history either way). -/
theorem ensureSession_getD (s : Sessions) (sid : String) :
    (lookupS (ensureSession s sid) sid).getD [] = (lookupS s sid).getD [] :=
  resolveBuffer_eq s sid

/-- Counting helper: a successful exchange at the head adds one to the
success count and nothing to the failure count. -/
theorem counts_cons_ok (f : Frame) (up : UpStream) (rest : List Inbound)
    (hf : up.fail = none) :
    countOk (Inbound.frame f up :: rest) = countOk rest + 1 ∧
    countFailed (Inbound.frame f up :: rest) = countFailed rest := by
  constructor <;>
    simp [countOk, countFailed, List.filter_cons, Inbound.ok, Inbound.failed, hf]

/-- Counting helper: a failed exchange at the head adds one to the
failure count and nothing to the success count. -/
theorem counts_cons_fail (f : Frame) (up : UpStream) (rest : List Inbound)
    (msg : String) (hf : up.fail = some msg) :
    countOk (Inbound.frame f up :: rest) = countOk rest ∧
    countFailed (Inbound.frame f up :: rest) = countFailed rest + 1 := by
  constructor <;>
    simp [countOk, countFailed, List.filter_cons, Inbound.ok, Inbound.failed, hf]

/-- Length of the history after a run of exchanges: two entries per
successful exchange, one orphaned user entry per failed exchange. -/
theorem applyExchanges_length (inputs : List Inbound) :
    (∀ i ∈ inputs, Inbound.isGood i = true) →
    ∀ history : List Message,
      (applyExchanges history inputs).length
        = history.length + 2 * countOk inputs + countFailed inputs := by
  induction inputs with
  | nil => intro _ history; simp [applyExchanges, countOk, countFailed]
  | cons i rest ih =>
    intro hg history
    cases i with
    | badFrame msg =>
      have hbad := hg (Inbound.badFrame msg) (by simp)
      simp [Inbound.isGood] at hbad
    | frame f up =>
      have hg2 : ∀ j ∈ rest, Inbound.isGood j = true := fun j hj => hg j (by simp [hj])
      cases hf : up.fail with
      | none =>
        simp only [applyExchanges]
        rw [ih hg2, runExchange_history_ok _ _ _ hf,
          (counts_cons_ok f up rest hf).1, (counts_cons_ok f up rest hf).2]
        simp [List.length_append]
        omega
      | some msg =>
        simp only [applyExchanges]
        rw [ih hg2, runExchange_history_fail _ _ _ _ hf,
          (counts_cons_fail f up rest msg hf).1, (counts_cons_fail f up rest msg hf).2]
        simp [List.length_append]
        omega

/-- Role-shape of the history after a run of exchanges: block structure
is preserved, each exchange contributing a matched pair or an orphan. -/
theorem applyExchanges_blocks (inputs : List Inbound) :
    (∀ i ∈ inputs, Inbound.isGood i = true) →
    ∀ history : List Message, Blocks (rolesOf history) →
      Blocks (rolesOf (applyExchanges history inputs)) := by
  induction inputs with
  | nil => intro _ history h0; exact h0
  | cons i rest ih =>
    intro hg history h0
    cases i with
    | badFrame msg =>
      have hbad := hg (Inbound.badFrame msg) (by simp)
      simp [Inbound.isGood] at hbad
    | frame f up =>
      have hg2 : ∀ j ∈ rest, Inbound.isGood j = true := fun j hj => hg j (by simp [hj])
      cases hf : up.fail with
      | none =>
        simp only [applyExchanges]
        refine ih hg2 _ ?_
        rw [runExchange_history_ok _ _ _ hf]
        have hr : rolesOf (history
              ++ [{ role := Role.user, content := (decodeFrame f).1 },
                  { role := Role.assistant, content := joinAll (fragTexts up.frags) }])
            = rolesOf history ++ [Role.user, Role.assistant] := by
          simp [rolesOf]
        rw [hr]
        exact Blocks.pair _ h0
      | some msg =>
        simp only [applyExchanges]
        refine ih hg2 _ ?_
        rw [runExchange_history_fail _ _ _ _ hf]
        have hr : rolesOf (history ++ [{ role := Role.user, content := (decodeFrame f).1 }])
            = rolesOf history ++ [Role.user] := by
          simp [rolesOf]
        rw [hr]
        exact Blocks.orphan _ h0

/-- Claim C1 counterexample: an inbound frame that fails to decode (the
first item below) is not converted into an `error` event — the
connection emits nothing at all and terminates with an uncaught
exception, never processing the following frame, contradicting the claim
that every failure, including a decode error of the inbound frame, is
caught and the loop continues. -/
theorem decode_error_kills_connection :
    (websocket_chat [] "s"
        [Inbound.badFrame "Expecting value: line 1 column 1 (char 0)",
         Inbound.frame ⟨some "hi", none, none⟩ ⟨[], none⟩]).1 = [] ∧
    (websocket_chat [] "s"
        [Inbound.badFrame "Expecting value: line 1 column 1 (char 0)",
         Inbound.frame ⟨some "hi", none, none⟩ ⟨[], none⟩]).2.2
      = ExitKind.crashed "Expecting value: line 1 column 1 (char 0)" := by
  constructor <;> rfl

/-- Claim C1 (amended): every failure inside the guarded per-exchange
body — an upstream provider error or a malformed fragment shape, both
arising after the `start` event — is caught and converted into exactly
one outbound `error` event carrying the failure's string description,
and the loop continues with the next inbound frame; when every inbound
frame is received and parsed successfully, only the disconnect signal
ends the loop and the connection's outbound log is precisely the
concatenation of the per-frame event blocks. -/
theorem guarded_failures_caught (sessions : Sessions) (sid : String)
    (inputs : List Inbound) (hg : ∀ i ∈ inputs, Inbound.isGood i = true) :
    (websocket_chat sessions sid inputs).2.2 = ExitKind.disconnected ∧
    (websocket_chat sessions sid inputs).1 = allEvents inputs ∧
    (∀ f up msg, Inbound.frame f up ∈ inputs → up.fail = some msg →
      ((runExchange [] f up).events.filter Event.isError) = [Event.error msg]) := by
  unfold websocket_chat
  refine ⟨runLoop_exit sid inputs hg _, runLoop_events sid inputs hg _, ?_⟩
  intro f up msg _ hf
  rw [runExchange_events_fail _ _ _ _ hf]
  simp [Event.isError, List.filter_append, List.filter_map, Function.comp]

/-- Claim C1 witness: a connection delivering one failing exchange then
one successful one emits `start`, `error`, `start`, `done` and still ends
by disconnect. -/
theorem guarded_failures_caught_witness :
    (websocket_chat [] "s"
        [Inbound.frame ⟨some "a", none, none⟩ ⟨[], some "boom"⟩,
         Inbound.frame ⟨some "b", none, none⟩ ⟨[], none⟩]).2.2
      = ExitKind.disconnected ∧
    (websocket_chat [] "s"
        [Inbound.frame ⟨some "a", none, none⟩ ⟨[], some "boom"⟩,
         Inbound.frame ⟨some "b", none, none⟩ ⟨[], none⟩]).1
      = [Event.start, Event.error "boom", Event.start, Event.done] := by
  have h := guarded_failures_caught [] "s"
    [Inbound.frame ⟨some "a", none, none⟩ ⟨[], some "boom"⟩,
     Inbound.frame ⟨some "b", none, none⟩ ⟨[], none⟩] (by decide)
  refine ⟨h.1, ?_⟩
  rw [h.2.1]
  rfl

/-- Claim C2: for an exchange whose stream is exhausted without error,
the concatenation of the `content` fields of the `chunk` events emitted
during the exchange, in emission order, is exactly the content of the
assistant entry appended to the session history. -/
theorem chunk_concat_matches_history (history : List Message) (f : Frame) (up : UpStream)
    (hf : up.fail = none) :
    (runExchange history f up).history
      = history ++ [{ role := Role.user, content := (decodeFrame f).1 },
          { role := Role.assistant,
            content := joinAll (chunkContents (runExchange history f up).events) }] := by
  rw [runExchange_events_ok _ _ _ hf, runExchange_history_ok _ _ _ hf]
  simp [chunkContents, chunkContents_append, chunkContents_map_chunk]

/-- Claim C2 witness: the spec scenario — fragments `"He"`, `"llo"`
produce history entries `user "hi"`, `assistant "Hello"`. -/
theorem chunk_concat_matches_history_witness :
    (runExchange [] ⟨some "hi", none, none⟩
        ⟨[⟨some [⟨⟨some "He"⟩⟩]⟩, ⟨some [⟨⟨some "llo"⟩⟩]⟩], none⟩).history
      = [{ role := Role.user, content := "hi" },
         { role := Role.assistant, content := "Hello" }] := by
  have h := chunk_concat_matches_history [] ⟨some "hi", none, none⟩
    ⟨[⟨some [⟨⟨some "He"⟩⟩]⟩, ⟨some [⟨⟨some "llo"⟩⟩]⟩], none⟩ rfl
  rw [h]
  rfl

/-- Claim C3 counterexample: after two failed exchanges and one
successful one on a fresh session, the stored history has four entries
(three user turns, one assistant turn), while the claimed formula
`2 x successes + (1 if mid-flight or failed else 0)` yields 2 or 3 —
orphaned user entries accumulate, one per failed exchange, so no single
`+1` term can account for them. -/
theorem history_length_formula_fails :
    ((lookupS (websocket_chat [] "s"
        [Inbound.frame ⟨some "a", none, none⟩ ⟨[], some "e1"⟩,
         Inbound.frame ⟨some "b", none, none⟩ ⟨[], some "e2"⟩,
         Inbound.frame ⟨some "c", none, none⟩ ⟨[⟨some [⟨⟨some "X"⟩⟩]⟩], none⟩]).2.1
        "s").getD []).length = 4 ∧
    countOk
        [Inbound.frame ⟨some "a", none, none⟩ ⟨[], some "e1"⟩,
         Inbound.frame ⟨some "b", none, none⟩ ⟨[], some "e2"⟩,
         Inbound.frame ⟨some "c", none, none⟩ ⟨[⟨some [⟨⟨some "X"⟩⟩]⟩], none⟩] = 1 ∧
    (4 : Nat) ≠ 2 * 1 ∧ (4 : Nat) ≠ 2 * 1 + 1 := by
  refine ⟨rfl, rfl, by decide, by decide⟩

/-- Claim C3 (amended): after any sequence of completed request cycles,
the stored history length equals its starting length plus two entries
per successful exchange plus one entry per failed exchange — each
successful exchange appends exactly one user and one assistant entry,
and each failed exchange appends exactly one orphaned user entry, these
orphans accumulating rather than being bounded by one. -/
theorem history_length_counts (sessions : Sessions) (sid : String)
    (inputs : List Inbound) (hg : ∀ i ∈ inputs, Inbound.isGood i = true) :
    ((lookupS (websocket_chat sessions sid inputs).2.1 sid).getD []).length
      = ((lookupS sessions sid).getD []).length
          + 2 * countOk inputs + countFailed inputs := by
  unfold websocket_chat
  rw [runLoop_history sid inputs hg, ensureSession_getD]
  exact applyExchanges_length inputs hg _

/-- Claim C3 witness: one failed then one successful exchange on a fresh
session leave a history of length `0 + 2 * 1 + 1 = 3`. -/
theorem history_length_counts_witness :
    ((lookupS (websocket_chat [] "t"
        [Inbound.frame ⟨some "a", none, none⟩ ⟨[], some "oops"⟩,
         Inbound.frame ⟨some "b", none, none⟩ ⟨[], none⟩]).2.1 "t").getD []).length
      = ((lookupS ([] : Sessions) "t").getD []).length
          + 2 * countOk
              [Inbound.frame ⟨some "a", none, none⟩ ⟨[], some "oops"⟩,
               Inbound.frame ⟨some "b", none, none⟩ ⟨[], none⟩]
          + countFailed
              [Inbound.frame ⟨some "a", none, none⟩ ⟨[], some "oops"⟩,
               Inbound.frame ⟨some "b", none, none⟩ ⟨[], none⟩] ∧
    ((lookupS (websocket_chat [] "t"
        [Inbound.frame ⟨some "a", none, none⟩ ⟨[], some "oops"⟩,
         Inbound.frame ⟨some "b", none, none⟩ ⟨[], none⟩]).2.1 "t").getD []).length = 3 := by
  refine ⟨history_length_counts [] "t" _ (by decide), rfl⟩

/-- Claim C4 counterexample: a failed exchange followed by a successful
one leaves the reachable history role sequence user, user, assistant —
the orphaned user entry sits in the middle, not at the tail, so the
history neither alternates strictly nor matches the claimed
sole-exception shape of a single trailing unmatched user entry. -/
theorem strict_alt_violated :
    rolesOf ((lookupS (websocket_chat [] "s"
        [Inbound.frame ⟨some "a", none, none⟩ ⟨[], some "boom"⟩,
         Inbound.frame ⟨some "b", none, none⟩ ⟨[⟨some [⟨⟨some "X"⟩⟩]⟩], none⟩]).2.1
        "s").getD [])
      = [Role.user, Role.user, Role.assistant] ∧
    strictAlt [Role.user, Role.user, Role.assistant] = false := by
  refine ⟨rfl, rfl⟩

/-- Claim C4 (amended): every reachable history is a concatenation of
per-exchange blocks, each block either a user entry immediately followed
by its assistant reply or an orphaned user entry from a failed exchange;
orphaned user entries may therefore occur anywhere in the sequence, not
only at the tail. -/
theorem history_blocks_invariant (sessions : Sessions) (sid : String)
    (inputs : List Inbound) (hg : ∀ i ∈ inputs, Inbound.isGood i = true)
    (h0 : Blocks (rolesOf ((lookupS sessions sid).getD []))) :
    Blocks (rolesOf ((lookupS (websocket_chat sessions sid inputs).2.1 sid).getD [])) := by
  unfold websocket_chat
  rw [runLoop_history sid inputs hg, ensureSession_getD]
  exact applyExchanges_blocks inputs hg _ h0

/-- Claim C4 witness: a single failed exchange on a fresh session leaves
a block-structured history (one orphaned user entry). -/
theorem history_blocks_invariant_witness :
    Blocks (rolesOf ((lookupS (websocket_chat [] "w"
        [Inbound.frame ⟨some "q", none, none⟩ ⟨[], some "err"⟩]).2.1 "w").getD [])) :=
  history_blocks_invariant [] "w"
    [Inbound.frame ⟨some "q", none, none⟩ ⟨[], some "err"⟩] (by decide) Blocks.nil

/-- Claim C5: when the upstream provider raises mid-stream after some
fragments, the client observes `start`, the `chunk` events for the
fragments received before the failure (each a `chunk` event), then a
single `error` event; the history retains the user entry appended for
the exchange and gains no assistant entry. -/
theorem midstream_failure_events (history : List Message) (f : Frame) (up : UpStream)
    (msg : String) (hf : up.fail = some msg) :
    (runExchange history f up).events
        = Event.start :: (fragTexts up.frags).map Event.chunk ++ [Event.error msg] ∧
    (∀ e ∈ (fragTexts up.frags).map Event.chunk, ∃ c, e = Event.chunk c) ∧
    (runExchange history f up).history
        = history ++ [{ role := Role.user, content := (decodeFrame f).1 }] := by
  refine ⟨runExchange_events_fail _ _ _ _ hf, ?_, runExchange_history_fail _ _ _ _ hf⟩
  intro e he
  rcases List.mem_map.mp he with ⟨c, _, rfl⟩
  exact ⟨c, rfl⟩

/-- Claim C5 witness: the spec scenario — one fragment `"He"` then an
exception `"boom"` yields `start`, `chunk "He"`, `error "boom"` and a
history holding only the user entry. -/
theorem midstream_failure_events_witness :
    (runExchange [] ⟨some "hi", none, none⟩
        ⟨[⟨some [⟨⟨some "He"⟩⟩]⟩], some "boom"⟩).events
      = [Event.start, Event.chunk "He", Event.error "boom"] ∧
    (runExchange [] ⟨some "hi", none, none⟩
        ⟨[⟨some [⟨⟨some "He"⟩⟩]⟩], some "boom"⟩).history
      = [{ role := Role.user, content := "hi" }] := by
  have h := midstream_failure_events [] ⟨some "hi", none, none⟩
    ⟨[⟨some [⟨⟨some "He"⟩⟩]⟩], some "boom"⟩ "boom" rfl
  exact ⟨by rw [h.1]; rfl, by rw [h.2.2]; rfl⟩

/-- Claim C6: the outbound events of one inbound frame's exchange are
exactly one leading `start`, then only `chunk` events, then exactly one
terminal event which is either `done` or `error` — so `start` precedes
the first `chunk` and the terminal event, and at most one `start`/`done`
(or `start`/`error`) pair occurs per inbound message. -/
theorem start_event_first (history : List Message) (f : Frame) (up : UpStream) :
    ∃ mid last,
      (runExchange history f up).events = Event.start :: (mid ++ [last]) ∧
      (∀ e ∈ mid, ∃ c, e = Event.chunk c) ∧
      (last = Event.done ∨ ∃ m, last = Event.error m) := by
  cases hf : up.fail with
  | none =>
    refine ⟨(fragTexts up.frags).map Event.chunk, Event.done, ?_, ?_, Or.inl rfl⟩
    · rw [runExchange_events_ok _ _ _ hf]
      simp
    · intro e he
      rcases List.mem_map.mp he with ⟨c, _, rfl⟩
      exact ⟨c, rfl⟩
  | some msg =>
    refine ⟨(fragTexts up.frags).map Event.chunk, Event.error msg, ?_, ?_,
      Or.inr ⟨msg, rfl⟩⟩
    · rw [runExchange_events_fail _ _ _ _ hf]
      simp
    · intro e he
      rcases List.mem_map.mp he with ⟨c, _, rfl⟩
      exact ⟨c, rfl⟩

/-- Claim C7: one step of the stream-consumption loop — a fragment
carrying non-empty text content `s` appends `s` to the running buffer
and emits exactly one `chunk` event carrying exactly `s`; a fragment
carrying no text content leaves the buffer and the event log unchanged. -/
theorem fragment_step_behavior (acc : String × List Event) (c : Chunk) :
    (∀ s, c.textContent = some s →
      processChunk acc c = (acc.1 ++ s, acc.2 ++ [Event.chunk s])) ∧
    (c.textContent = none → processChunk acc c = acc) := by
  constructor
  · intro s hs
    rw [processChunk_eq, hs]
  · intro hs
    rw [processChunk_eq, hs]

/-- Claim C7 witness: a fragment carrying `"llo"` extends the buffer and
emits one `chunk` event; a fragment with `content` absent changes
nothing. -/
theorem fragment_step_behavior_witness :
    processChunk ("He", [Event.start, Event.chunk "He"]) ⟨some [⟨⟨some "llo"⟩⟩]⟩
      = ("Hello", [Event.start, Event.chunk "He", Event.chunk "llo"]) ∧
    processChunk ("He", [Event.start, Event.chunk "He"]) ⟨some [⟨⟨none⟩⟩]⟩
      = ("He", [Event.start, Event.chunk "He"]) := by
  constructor
  · have h := (fragment_step_behavior ("He", [Event.start, Event.chunk "He"])
      ⟨some [⟨⟨some "llo"⟩⟩]⟩).1 "llo" rfl
    rw [h]
    rfl
  · exact (fragment_step_behavior ("He", [Event.start, Event.chunk "He"])
      ⟨some [⟨⟨none⟩⟩]⟩).2 rfl

/-- Claim C8: the disconnect signal at the receive suspension point ends
the loop emitting nothing further and leaving the session map untouched,
and a later connection using the same session identifier resolves a
history buffer containing exactly the entries accumulated before the
disconnect (the starting buffer with every exchange of the first
connection applied). -/
theorem session_persists_across_connections (sessions : Sessions) (sid : String)
    (inputs : List Inbound) (hg : ∀ i ∈ inputs, Inbound.isGood i = true) :
    (∀ s : Sessions, runLoop sid s [] = ([], s, ExitKind.disconnected)) ∧
    resolveBuffer (websocket_chat sessions sid inputs).2.1 sid
      = applyExchanges (resolveBuffer sessions sid) inputs := by
  refine ⟨fun s => rfl, ?_⟩
  rw [resolveBuffer_eq, resolveBuffer_eq]
  unfold websocket_chat
  rw [runLoop_history sid inputs hg, ensureSession_getD]

/-- Claim C8 witness: after one successful exchange and a disconnect, a
reconnecting client with the same id resolves the two accumulated
entries. -/
theorem session_persists_across_connections_witness :
    resolveBuffer (websocket_chat [] "s"
        [Inbound.frame ⟨some "hi", none, none⟩ ⟨[⟨some [⟨⟨some "ok"⟩⟩]⟩], none⟩]).2.1 "s"
      = applyExchanges (resolveBuffer [] "s")
          [Inbound.frame ⟨some "hi", none, none⟩ ⟨[⟨some [⟨⟨some "ok"⟩⟩]⟩], none⟩] ∧
    resolveBuffer (websocket_chat [] "s"
        [Inbound.frame ⟨some "hi", none, none⟩ ⟨[⟨some [⟨⟨some "ok"⟩⟩]⟩], none⟩]).2.1 "s"
      = [{ role := Role.user, content := "hi" },
         { role := Role.assistant, content := "ok" }] := by
  have h := session_persists_across_connections [] "s"
    [Inbound.frame ⟨some "hi", none, none⟩ ⟨[⟨some [⟨⟨some "ok"⟩⟩]⟩], none⟩] (by decide)
  exact ⟨h.2, rfl⟩

/-- Claim C9: a frame omitting the `model` key leads to the completion
provider being invoked with the fixed fallback model identifier
`openai/gpt-5.1`, and a frame omitting `mcp_servers` decodes to the
empty tool-server list. -/
theorem default_model_fallback (history : List Message) (f : Frame) (up : UpStream) :
    (f.model = none → (runExchange history f up).call.model = "openai/gpt-5.1") ∧
    (f.mcp_servers = none → (decodeFrame f).2.2 = []) := by
  constructor
  · intro hm
    rw [runExchange_call]
    simp [decodeFrame, hm]
  · intro hs
    simp [decodeFrame, hs]

/-- Claim C9 witness: the frame `{"message": "hi"}` yields a provider
call with model `openai/gpt-5.1` and an empty decoded tool-server list. -/
theorem default_model_fallback_witness :
    (runExchange [] ⟨some "hi", none, none⟩ ⟨[], none⟩).call.model = "openai/gpt-5.1" ∧
    (decodeFrame ⟨some "hi", none, none⟩).2.2 = [] := by
  have h := default_model_fallback [] ⟨some "hi", none, none⟩ ⟨[], none⟩
  exact ⟨h.1 rfl, h.2 rfl⟩

/-- Claim C10: a parsed frame lacking the `message` key proceeds as a
normal exchange with the empty string as the user text — a user entry
with empty content is appended to the history, the provider is invoked
with that history, and no `error` event arises from the missing field
(none at all when the stream succeeds). -/
theorem missing_message_empty_string (history : List Message) (f : Frame) (up : UpStream)
    (hm : f.message = none) :
    (runExchange history f up).call.messages
      = history ++ [{ role := Role.user, content := "" }] ∧
    (∃ rest, (runExchange history f up).history
      = (history ++ [{ role := Role.user, content := "" }]) ++ rest) ∧
    (up.fail = none → ∀ m, Event.error m ∉ (runExchange history f up).events) := by
  have hd : (decodeFrame f).1 = "" := by simp [decodeFrame, hm]
  refine ⟨?_, ?_, ?_⟩
  · rw [runExchange_call, hd]
  · cases hf : up.fail with
    | some msg =>
      refine ⟨[], ?_⟩
      rw [runExchange_history_fail _ _ _ _ hf, hd]
      simp
    | none =>
      refine ⟨[{ role := Role.assistant, content := joinAll (fragTexts up.frags) }], ?_⟩
      rw [runExchange_history_ok _ _ _ hf, hd]
      simp
  · intro hf m hmem
    rw [runExchange_events_ok _ _ _ hf] at hmem
    simp at hmem

/-- Claim C10 witness: the frame `{}` with a successful empty stream
appends `user ""`, invokes the provider with that entry, and emits no
`error` event. -/
theorem missing_message_empty_string_witness :
    (runExchange [] ⟨none, none, none⟩ ⟨[], none⟩).call.messages
      = [] ++ [{ role := Role.user, content := "" }] ∧
    ∀ m, Event.error m ∉ (runExchange [] ⟨none, none, none⟩ ⟨[], none⟩).events := by
  have h := missing_message_empty_string [] ⟨none, none, none⟩ ⟨[], none⟩ rfl
  exact ⟨h.1, h.2.2 rfl⟩

end Arbor
